import Mathlib

/-!
Shallow embedding of the pinocchio-escrow program (src/src), covering the
three instruction handlers `make` (Open), `take` (Settle) and `refund`
(Cancel), the persisted `Escrow` record, and the interface of the external
collaborators (system program, token program, associated-token program)
that the handlers invoke.

Modelling conventions:
* A ledger address is its list of bytes (`Pubkey`); byte-for-byte
  comparison of addresses is list equality.
* `pinocchio_pubkey::derive_address_const` is an external hash-based
  derivation; the handlers are parameterized over it (`DeriveFn`), so all
  theorems hold for every derivation function.
* Each handler returns `Except ProgramError` of a result that records the
  ordered list of effects it issued (`Effect`) together with the final
  contents of every account it mutates.  An error result models the host
  transaction discarding every effect (spec section 5: atomicity is
  delegated to the transaction boundary).
* External CPIs (checked transfer, account close, account create, ATA
  create) are modelled from the spec at their interface, since their code
  is outside this repository.
-/

/-- A 32-byte ledger address, as its list of bytes. -/
abbrev Pubkey := List Nat

/-- Errors the handlers return, as in the source; `ExternalFailure` stands
for an error propagated out of an external CPI. -/
inductive ProgramError where
  | NotEnoughAccountKeys
  | InvalidAccountOwner
  | InvalidInstructionData
  | InvalidAccountData
  | ExternalFailure
deriving Repr, DecidableEq

/-- The token-program view of a balance ("token") account: its mint, its
owner field (the authority), and its amount. -/
structure TokAcc where
  mint : Pubkey
  owner : Pubkey
  amount : Nat
deriving Repr, DecidableEq

/-- One caller-supplied account reference (`AccountView` in the source):
its address, owning program, lamport balance, raw data bytes, signer flag,
and — for accounts the token program can parse — the parsed token-account
data (`tok`) or the mint's decimals (`mintDecimals`). -/
structure AccountView where
  address : Pubkey
  owner : Pubkey
  lamports : Nat
  data : List Nat
  isSigner : Bool
  tok : Option TokAcc
  mintDecimals : Option Nat
deriving Repr, DecidableEq

/-- Stand-in for the system program id (the real one is 32 zero bytes). -/
def systemID : Pubkey := List.replicate 32 0

/-- Stand-in for `pinocchio_token::ID`, the token program id. -/
def tokenID : Pubkey := List.replicate 32 1

/-- Stand-in for `crate::ID`, the escrow program's declared id. -/
def crateID : Pubkey := List.replicate 32 2

/-- The bytes of the literal seed `b"escrow"`. -/
def escrowLit : List Nat := [101, 115, 99, 114, 111, 119]

/-- Type of `pinocchio_pubkey::derive_address_const`: seeds and a program
id to a derived address.  The handlers are parametric in it. -/
abbrev DeriveFn := List (List Nat) → Pubkey → Pubkey

/-- Little-endian decoding of a byte list (`u64::from_le_bytes`). -/
def u64FromLE (bs : List Nat) : Nat :=
  bs.foldr (fun b acc => b + 256 * acc) 0

/-- Little-endian encoding of a `u64` (`u64::to_le_bytes`), 8 bytes. -/
def u64LE (n : Nat) : List Nat :=
  [n % 256, n / 256 % 256, n / 256 ^ 2 % 256, n / 256 ^ 3 % 256,
   n / 256 ^ 4 % 256, n / 256 ^ 5 % 256, n / 256 ^ 6 % 256, n / 256 ^ 7 % 256]

/-- The byte of `bs` at offset `i` (0 when out of range), as the source
reads single bytes at fixed offsets. -/
def byteAt (bs : List Nat) (i : Nat) : Nat := bs.getD i 0

/-- The persisted escrow record (`src/src/state/escrow.rs`):
`mint_b`[32] ‖ `amount_b`[8] ‖ `seed`[1] ‖ `bump`[1]. -/
structure Escrow where
  mint_b : List Nat
  amount_b : List Nat
  seed : Nat
  bump : Nat
deriving Repr, DecidableEq

/-- `Escrow::LEN`: the record's fixed byte size. -/
def Escrow.LEN : Nat := 42

/-- `Escrow::from_account_info_mut` viewed as a decoder: the source checks
`data.len() == Escrow::LEN` and then reinterprets the bytes as the
`#[repr(C)]` struct (mint_b at 0..32, amount_b at 32..40, seed at 40,
bump at 41). -/
def Escrow.fromBytes (bs : List Nat) : Except ProgramError Escrow :=
  if bs.length ≠ Escrow.LEN then .error .InvalidAccountData
  else .ok ⟨bs.take 32, (bs.drop 32).take 8, byteAt bs 40, byteAt bs 41⟩

/-- The byte image of a record, per the `#[repr(C)]` layout. -/
def Escrow.toBytes (e : Escrow) : List Nat :=
  e.mint_b ++ e.amount_b ++ [e.seed, e.bump]

/-- One effect a handler issues, in order of invocation. -/
inductive Effect where
  | createAccount (source dest : Pubkey) (lamports space : Nat) (owner : Pubkey)
  | writeEscrow (dest : Pubkey) (bytes : List Nat)
  | createAta (funding acct wallet mint : Pubkey)
  | transfer (source mint dest authority : Pubkey) (amount decimals : Nat)
      (pdaSigned : Bool)
  | closeAcct (acct dest authority : Pubkey)
  | setLamports (acct : Pubkey) (value : Nat)
deriving Repr, DecidableEq

/-- `true` iff an effect is a token transfer. -/
def Effect.isTransfer : Effect → Bool
  | .transfer _ _ _ _ _ _ _ => true
  | _ => false

/-- `TokenAccount::from_account_view`: parse an account as a token
account, failing when the data is not a token account. -/
def parseTok (a : AccountView) : Except ProgramError TokAcc :=
  match a.tok with
  | some t => .ok t
  | none => .error .InvalidAccountData

/-- Early-return guard: error with `e` when `c` holds, mirroring the
source's `if cond { return Err(e) }` statements. -/
def rejectIf (c : Prop) [Decidable c] (e : ProgramError) :
    Except ProgramError Unit :=
  if c then .error e else .ok ()

/-- Modelled from the spec: the external token program's decimals-checked
transfer ("checked transfer" collaborator, spec sections 1 and 4).  It reads
the mint's decimals, requires both balance accounts to hold that mint,
requires the authority to be the source account's owner, and moves
`amount`, failing on insufficient balance.  Returns the updated source and
destination accounts and the decimals it checked. -/
def doTransfer (source : TokAcc) (mint : AccountView) (dest : TokAcc)
    (authority : Pubkey) (amount : Nat) :
    Except ProgramError (TokAcc × TokAcc × Nat) :=
  match mint.mintDecimals with
  | none => .error .InvalidAccountData
  | some d =>
    if source.mint ≠ mint.address then .error .ExternalFailure
    else if dest.mint ≠ mint.address then .error .ExternalFailure
    else if source.owner ≠ authority then .error .ExternalFailure
    else if source.amount < amount then .error .ExternalFailure
    else .ok ({ source with amount := source.amount - amount },
              { dest with amount := dest.amount + amount }, d)

/-- The values `make` parses out of its 18-byte instruction payload. -/
structure MakeParams where
  amount_a : Nat
  amount_b : Nat
  seed : Nat
  bump : Nat
deriving Repr, DecidableEq

/-- Result of a successful `make`: the effect trace and the final contents
of every account it mutates. -/
structure MakeResult where
  trace : List Effect
  escrowOwner : Pubkey
  escrowData : List Nat
  escrowLamports : Nat
  makerLamports : Nat
  makerAta : TokAcc
  vault : TokAcc
deriving Repr, DecidableEq

/-- The validation gate of `make` (src/src/instructions/make.rs lines
42-83), in source order: maker signed; mint_a and mint_b owned by the
token program; maker_ata owned by the token program; escrow and vault
still owned by the system program; payload exactly 18 bytes; parse
`amount_a`, `amount_b`, `seed`, `bump`; amounts nonzero; the derived
escrow PDA equals the supplied escrow address. -/
def makeValidate (derive : DeriveFn)
    (maker mint_a mint_b maker_ata vault escrow : AccountView)
    (instruction_data : List Nat) : Except ProgramError MakeParams := do
  rejectIf (maker.isSigner = false) .InvalidAccountOwner
  rejectIf (mint_a.owner ≠ tokenID ∨ mint_b.owner ≠ tokenID)
    .InvalidAccountOwner
  rejectIf (maker_ata.owner ≠ tokenID) .InvalidAccountOwner
  rejectIf (escrow.owner ≠ systemID ∨ vault.owner ≠ systemID)
    .InvalidAccountOwner
  rejectIf (instruction_data.length ≠ 18) .InvalidInstructionData
  let amount_a := u64FromLE (instruction_data.take 8)
  let amount_b := u64FromLE ((instruction_data.drop 8).take 8)
  let seed := byteAt instruction_data 16
  let bump := byteAt instruction_data 17
  rejectIf (amount_a = 0 ∨ amount_b = 0) .InvalidInstructionData
  rejectIf (derive [escrowLit, maker.address, [seed], [bump]] crateID ≠
    escrow.address) .InvalidAccountOwner
  pure ⟨amount_a, amount_b, seed, bump⟩

/-- The effect phase of `make` (src/src/instructions/make.rs lines
85-119): create the 42-byte record funded to the rent minimum and owned by
the program, write the record fields through `set_inner`, create the vault
ATA for mint_a with the escrow record as wallet, and transfer `amount_a`
from the maker's ATA into the vault (decimals-checked, maker-authorized).
`CreateAccount` is modelled from the spec's account-creation capability:
it needs the funder to afford the rent deposit and the target to be a
fresh (zero-lamport) slot. -/
def makeEffects (rentMin : Nat → Nat)
    (maker mint_a mint_b maker_ata vault escrow : AccountView)
    (p : MakeParams) : Except ProgramError MakeResult := do
  let lam := rentMin Escrow.LEN
  rejectIf (maker.lamports < lam) .ExternalFailure
  rejectIf (escrow.lamports ≠ 0) .ExternalFailure
  let er : Escrow := ⟨mint_b.address, u64LE p.amount_b, p.seed, p.bump⟩
  let v : TokAcc := ⟨mint_a.address, escrow.address, 0⟩
  let ma ← parseTok maker_ata
  let (ma1, v1, decA) ← doTransfer ma mint_a v maker.address p.amount_a
  pure { trace := [
                .createAccount maker.address escrow.address lam Escrow.LEN
                  crateID,
                .writeEscrow escrow.address er.toBytes,
                .createAta maker.address vault.address escrow.address
                  mint_a.address,
                .transfer maker_ata.address mint_a.address vault.address
                  maker.address p.amount_a decA false ],
              escrowOwner := crateID,
              escrowData := er.toBytes,
              escrowLamports := lam,
              makerLamports := maker.lamports - lam,
              makerAta := ma1,
              vault := v1 }

/-- The `make` handler (Open): destructure the account list, run the
validation gate, then the effect phase. -/
def make (derive : DeriveFn) (rentMin : Nat → Nat)
    (accounts : List AccountView) (instruction_data : List Nat) :
    Except ProgramError MakeResult :=
  match accounts with
  | maker :: mint_a :: mint_b :: maker_ata :: vault :: escrow ::
      _system_program :: _token_program :: _ata_program :: _remaining => do
    let p ← makeValidate derive maker mint_a mint_b maker_ata vault escrow
      instruction_data
    makeEffects rentMin maker mint_a mint_b maker_ata vault escrow p
  | _ => .error .NotEnoughAccountKeys

/-- What `take`'s validation gate hands to its effect phase: the parsed
token accounts and the decoded escrow record. -/
structure TakeCtx where
  tokTAA : TokAcc
  tokTAB : TokAcc
  tokV : TokAcc
  tokMAB : TokAcc
  er : Escrow
deriving Repr, DecidableEq

/-- Result of a successful `take`: effect trace and final account
contents.  The vault is closed (`vault = none`, its slot back with the
system program); the record's data bytes stay as they were. -/
structure TakeResult where
  trace : List Effect
  takerAtaA : TokAcc
  takerAtaB : TokAcc
  makerAtaB : TokAcc
  vault : Option TokAcc
  vaultOwner : Pubkey
  makerLamports : Nat
  escrowLamports : Nat
  escrowData : List Nat
deriving Repr, DecidableEq

/-- The validation gate of `take` (src/src/instructions/take.rs lines
43-102), in source order: taker signed; mints owned by the token program;
the four balance accounts owned by the token program; taker_ata_a's owner
field is the taker and its mint is mint_a; likewise taker_ata_b against
mint_b; the vault's owner field is the escrow address and its mint is
mint_a; maker_ata_b's owner field is the maker and its mint is mint_b;
decode the record and check the PDA re-derived from the stored seed and
bump; the supplied mint_b equals the stored `mint_b`.  The source parses
the same token account once per field check; the parses are pure, so each
account is parsed once here. -/
def takeValidate (derive : DeriveFn)
    (taker maker mint_a mint_b taker_ata_a taker_ata_b vault maker_ata_b
      escrow : AccountView) : Except ProgramError TakeCtx := do
  rejectIf (taker.isSigner = false) .InvalidAccountOwner
  rejectIf (mint_a.owner ≠ tokenID ∨ mint_b.owner ≠ tokenID)
    .InvalidAccountOwner
  rejectIf (taker_ata_a.owner ≠ tokenID ∨ taker_ata_b.owner ≠ tokenID ∨
    vault.owner ≠ tokenID ∨ maker_ata_b.owner ≠ tokenID) .InvalidAccountOwner
  let taa ← parseTok taker_ata_a
  rejectIf (taa.owner ≠ taker.address) .InvalidAccountData
  rejectIf (taa.mint ≠ mint_a.address) .InvalidAccountData
  let tab ← parseTok taker_ata_b
  rejectIf (tab.owner ≠ taker.address) .InvalidAccountData
  rejectIf (tab.mint ≠ mint_b.address) .InvalidAccountData
  let tv ← parseTok vault
  rejectIf (tv.owner ≠ escrow.address) .InvalidAccountData
  rejectIf (tv.mint ≠ mint_a.address) .InvalidAccountData
  let mab ← parseTok maker_ata_b
  rejectIf (mab.owner ≠ maker.address) .InvalidAccountData
  rejectIf (mab.mint ≠ mint_b.address) .InvalidAccountData
  let er ← Escrow.fromBytes escrow.data
  rejectIf (derive [escrowLit, maker.address, [er.seed], [er.bump]]
    crateID ≠ escrow.address) .InvalidAccountOwner
  rejectIf (mint_b.address ≠ er.mint_b) .InvalidAccountData
  pure ⟨taa, tab, tv, mab, er⟩

/-- The effect phase of `take` (src/src/instructions/take.rs lines
104-141), in source order: transfer `amount_b` (the record's
`wanted_amount`, decoded little-endian) from taker_ata_b to maker_ata_b
authorized by the taker; transfer the vault's current balance to
taker_ata_a authorized by the escrow PDA; close the vault sending its
lamports to the maker (the external close requires the authority to be the
account's owner and the balance to be zero); add the record's lamports to
the maker and zero the record's lamports, leaving its data bytes as they
are. -/
def takeEffects
    (taker maker mint_a mint_b taker_ata_a taker_ata_b vault maker_ata_b
      escrow : AccountView) (c : TakeCtx) :
    Except ProgramError TakeResult := do
  let amount_b := u64FromLE c.er.amount_b
  let (tab1, mab1, decB) ← doTransfer c.tokTAB mint_b c.tokMAB taker.address
    amount_b
  let amount_a := c.tokV.amount
  let (tv1, taa1, decA) ← doTransfer c.tokV mint_a c.tokTAA escrow.address
    amount_a
  rejectIf (tv1.owner ≠ escrow.address) .ExternalFailure
  rejectIf (tv1.amount ≠ 0) .ExternalFailure
  let makerL := maker.lamports + vault.lamports + escrow.lamports
  pure { trace := [
                .transfer taker_ata_b.address mint_b.address
                  maker_ata_b.address taker.address amount_b decB false,
                .transfer vault.address mint_a.address taker_ata_a.address
                  escrow.address amount_a decA true,
                .closeAcct vault.address maker.address escrow.address,
                .setLamports maker.address makerL,
                .setLamports escrow.address 0 ],
              takerAtaA := taa1,
              takerAtaB := tab1,
              makerAtaB := mab1,
              vault := none,
              vaultOwner := systemID,
              makerLamports := makerL,
              escrowLamports := 0,
              escrowData := escrow.data }

/-- The `take` handler (Settle): destructure the account list, run the
validation gate, then the effect phase. -/
def take (derive : DeriveFn) (accounts : List AccountView) :
    Except ProgramError TakeResult :=
  match accounts with
  | taker :: maker :: mint_a :: mint_b :: taker_ata_a :: taker_ata_b ::
      vault :: maker_ata_b :: escrow :: _system_program :: _token_program ::
      _remaining => do
    let c ← takeValidate derive taker maker mint_a mint_b taker_ata_a
      taker_ata_b vault maker_ata_b escrow
    takeEffects taker maker mint_a mint_b taker_ata_a taker_ata_b vault
      maker_ata_b escrow c
  | _ => .error .NotEnoughAccountKeys

/-- What `refund`'s validation gate hands to its effect phase. -/
structure RefundCtx where
  tokMA : TokAcc
  tokV : TokAcc
  er : Escrow
deriving Repr, DecidableEq

/-- Result of a successful `refund`: effect trace and final account
contents. -/
structure RefundResult where
  trace : List Effect
  makerAta : TokAcc
  vault : Option TokAcc
  vaultOwner : Pubkey
  makerLamports : Nat
  escrowLamports : Nat
  escrowData : List Nat
deriving Repr, DecidableEq

/-- The validation gate of `refund` (src/src/instructions/refund.rs lines
35-76), in source order: maker signed; mints owned by the token program;
maker_ata and vault owned by the token program; maker_ata's owner field is
the maker and its mint is mint_a; the vault's owner field is the escrow
address and its mint is mint_a; decode the record and check the PDA
re-derived from the stored seed and bump; the supplied mint_b equals the
stored `mint_b`. -/
def refundValidate (derive : DeriveFn)
    (maker mint_a mint_b maker_ata vault escrow : AccountView) :
    Except ProgramError RefundCtx := do
  rejectIf (maker.isSigner = false) .InvalidAccountOwner
  rejectIf (mint_a.owner ≠ tokenID ∨ mint_b.owner ≠ tokenID)
    .InvalidAccountOwner
  rejectIf (maker_ata.owner ≠ tokenID ∨ vault.owner ≠ tokenID)
    .InvalidAccountOwner
  let ma ← parseTok maker_ata
  rejectIf (ma.owner ≠ maker.address) .InvalidAccountData
  rejectIf (ma.mint ≠ mint_a.address) .InvalidAccountData
  let tv ← parseTok vault
  rejectIf (tv.owner ≠ escrow.address) .InvalidAccountData
  rejectIf (tv.mint ≠ mint_a.address) .InvalidAccountData
  let er ← Escrow.fromBytes escrow.data
  rejectIf (derive [escrowLit, maker.address, [er.seed], [er.bump]]
    crateID ≠ escrow.address) .InvalidAccountOwner
  rejectIf (mint_b.address ≠ er.mint_b) .InvalidAccountData
  pure ⟨ma, tv, er⟩

/-- The effect phase of `refund` (src/src/instructions/refund.rs lines
78-103), in source order: transfer the vault's current balance back to
maker_ata authorized by the escrow PDA; close the vault sending its
lamports to the maker; add the record's lamports to the maker and zero the
record's lamports, leaving its data bytes as they are.  No mint_b transfer
is issued. -/
def refundEffects
    (maker mint_a mint_b maker_ata vault escrow : AccountView)
    (c : RefundCtx) : Except ProgramError RefundResult := do
  let amount_a := c.tokV.amount
  let (tv1, ma1, decA) ← doTransfer c.tokV mint_a c.tokMA escrow.address
    amount_a
  rejectIf (tv1.owner ≠ escrow.address) .ExternalFailure
  rejectIf (tv1.amount ≠ 0) .ExternalFailure
  let makerL := maker.lamports + vault.lamports + escrow.lamports
  pure { trace := [
              .transfer vault.address mint_a.address maker_ata.address
                escrow.address amount_a decA true,
              .closeAcct vault.address maker.address escrow.address,
              .setLamports maker.address makerL,
              .setLamports escrow.address 0 ],
            makerAta := ma1,
            vault := none,
            vaultOwner := systemID,
            makerLamports := makerL,
            escrowLamports := 0,
            escrowData := escrow.data }

/-- The `refund` handler (Cancel): destructure the account list, run the
validation gate, then the effect phase. -/
def refund (derive : DeriveFn) (accounts : List AccountView) :
    Except ProgramError RefundResult :=
  match accounts with
  | maker :: mint_a :: mint_b :: maker_ata :: vault :: escrow ::
      _system_program :: _token_program :: _remaining => do
    let c ← refundValidate derive maker mint_a mint_b maker_ata vault escrow
    refundEffects maker mint_a mint_b maker_ata vault escrow c
  | _ => .error .NotEnoughAccountKeys

/-- `true` iff an `Except` result is an error. -/
def isErr {ε α : Type} (x : Except ε α) : Bool :=
  match x with
  | .error _ => true
  | .ok _ => false

/-- A 32-byte address whose bytes are all `i`; distinct for distinct `i`. -/
def pb (i : Nat) : Pubkey := List.replicate 32 i

/-- Concrete maker address used by the witnesses. -/
def makerAddr : Pubkey := pb 3

/-- Concrete taker address used by the witnesses. -/
def takerAddr : Pubkey := pb 4

/-- Concrete mint-A address used by the witnesses. -/
def mintAAddr : Pubkey := pb 5

/-- Concrete mint-B address used by the witnesses. -/
def mintBAddr : Pubkey := pb 6

/-- Concrete escrow-record address used by the witnesses. -/
def escrowAddr : Pubkey := pb 7

/-- Concrete vault address used by the witnesses. -/
def vaultAddr : Pubkey := pb 8

/-- A derivation function under which the witness escrow address is the
derived address for every seed tuple. -/
def deriveC : DeriveFn := fun _ _ => escrowAddr

/-- A derivation function that never produces the witness addresses. -/
def deriveBad : DeriveFn := fun _ _ => pb 13

/-- A concrete rent-minimum function for the witnesses. -/
def rentMinC : Nat → Nat := fun _ => 5

/-- The record bytes stored in the witness escrow account: mint-B address,
`amount_b = 30` little-endian, seed `7`, bump `254`. -/
def escrowBytesC : List Nat := mintBAddr ++ u64LE 30 ++ [7, 254]

/-- Witness maker account (signer), as seen by `make` and `refund`. -/
def accMaker : AccountView :=
  ⟨makerAddr, systemID, 1000, [], true, none, none⟩

/-- Witness maker account as seen by `take` (not a signer there). -/
def accMakerRO : AccountView :=
  ⟨makerAddr, systemID, 50, [], false, none, none⟩

/-- Witness taker account (signer). -/
def accTaker : AccountView :=
  ⟨takerAddr, systemID, 10, [], true, none, none⟩

/-- Witness mint-A account: token-program owned, 6 decimals. -/
def accMintA : AccountView :=
  ⟨mintAAddr, tokenID, 1, [], false, none, some 6⟩

/-- Witness mint-B account: token-program owned, 9 decimals. -/
def accMintB : AccountView :=
  ⟨mintBAddr, tokenID, 1, [], false, none, some 9⟩

/-- Witness maker mint-A balance account (owner field the maker). -/
def accMakerAta : AccountView :=
  ⟨pb 12, tokenID, 20, [], false, some ⟨mintAAddr, makerAddr, 500⟩, none⟩

/-- Witness taker mint-A balance account. -/
def accTakerAtaA : AccountView :=
  ⟨pb 9, tokenID, 20, [], false, some ⟨mintAAddr, takerAddr, 5⟩, none⟩

/-- Witness taker mint-B balance account. -/
def accTakerAtaB : AccountView :=
  ⟨pb 10, tokenID, 20, [], false, some ⟨mintBAddr, takerAddr, 100⟩, none⟩

/-- Witness maker mint-B balance account. -/
def accMakerAtaB : AccountView :=
  ⟨pb 11, tokenID, 20, [], false, some ⟨mintBAddr, makerAddr, 2⟩, none⟩

/-- Witness vault of an open escrow: mint-A account owned by the escrow
record address, holding 70. -/
def accVault : AccountView :=
  ⟨vaultAddr, tokenID, 30, [], false, some ⟨mintAAddr, escrowAddr, 70⟩, none⟩

/-- Witness escrow record account of an open escrow. -/
def accEscrow : AccountView :=
  ⟨escrowAddr, crateID, 15, escrowBytesC, false, none, none⟩

/-- Witness un-initialized vault slot (system-owned), for `make`. -/
def accVaultSlot : AccountView :=
  ⟨vaultAddr, systemID, 0, [], false, none, none⟩

/-- Witness un-initialized escrow slot (system-owned), for `make`. -/
def accEscrowSlot : AccountView :=
  ⟨escrowAddr, systemID, 0, [], false, none, none⟩

/-- Witness system-program account entry. -/
def accSys : AccountView := ⟨systemID, systemID, 1, [], false, none, none⟩

/-- Witness token-program account entry. -/
def accTokProg : AccountView := ⟨tokenID, systemID, 1, [], false, none, none⟩

/-- Witness associated-token-program account entry. -/
def accAtaProg : AccountView := ⟨pb 14, systemID, 1, [], false, none, none⟩

/-- The witness account list for `make`. -/
def makeAccs : List AccountView :=
  [accMaker, accMintA, accMintB, accMakerAta, accVaultSlot, accEscrowSlot,
   accSys, accTokProg, accAtaProg]

/-- The witness instruction payload for `make`:
`amount_a = 70`, `amount_b = 30`, seed `7`, bump `254`. -/
def makeDataC : List Nat := u64LE 70 ++ u64LE 30 ++ [7, 254]

/-- The witness account list for `take`. -/
def takeAccs : List AccountView :=
  [accTaker, accMakerRO, accMintA, accMintB, accTakerAtaA, accTakerAtaB,
   accVault, accMakerAtaB, accEscrow, accSys, accTokProg]

/-- The witness account list for `refund`. -/
def refundAccs : List AccountView :=
  [accMaker, accMintA, accMintB, accMakerAta, accVault, accEscrow,
   accSys, accTokProg]

/-- The result `make` produces on the witness inputs. -/
def makeResC : MakeResult :=
  { trace := [
      .createAccount makerAddr escrowAddr 5 42 crateID,
      .writeEscrow escrowAddr escrowBytesC,
      .createAta makerAddr vaultAddr escrowAddr mintAAddr,
      .transfer (pb 12) mintAAddr vaultAddr makerAddr 70 6 false ],
    escrowOwner := crateID,
    escrowData := escrowBytesC,
    escrowLamports := 5,
    makerLamports := 995,
    makerAta := ⟨mintAAddr, makerAddr, 430⟩,
    vault := ⟨mintAAddr, escrowAddr, 70⟩ }

/-- The result `take` produces on the witness inputs. -/
def takeResC : TakeResult :=
  { trace := [
      .transfer (pb 10) mintBAddr (pb 11) takerAddr 30 9 false,
      .transfer vaultAddr mintAAddr (pb 9) escrowAddr 70 6 true,
      .closeAcct vaultAddr makerAddr escrowAddr,
      .setLamports makerAddr 95,
      .setLamports escrowAddr 0 ],
    takerAtaA := ⟨mintAAddr, takerAddr, 75⟩,
    takerAtaB := ⟨mintBAddr, takerAddr, 70⟩,
    makerAtaB := ⟨mintBAddr, makerAddr, 32⟩,
    vault := none,
    vaultOwner := systemID,
    makerLamports := 95,
    escrowLamports := 0,
    escrowData := escrowBytesC }

/-- The result `refund` produces on the witness inputs. -/
def refundResC : RefundResult :=
  { trace := [
      .transfer vaultAddr mintAAddr (pb 12) escrowAddr 70 6 true,
      .closeAcct vaultAddr makerAddr escrowAddr,
      .setLamports makerAddr 1045,
      .setLamports escrowAddr 0 ],
    makerAta := ⟨mintAAddr, makerAddr, 570⟩,
    vault := none,
    vaultOwner := systemID,
    makerLamports := 1045,
    escrowLamports := 0,
    escrowData := escrowBytesC }

/-- Witness account view of the custodial slot after it has been closed:
its data is cleared and its slot is back with the system program. -/
def accVaultClosed : AccountView :=
  ⟨vaultAddr, systemID, 0, [], false, none, none⟩

/-- The record-account view a later instruction sees after a successful
`make`: same address, with the owner, data and lamports `make` left. -/
def reopenView (escrow : AccountView) (r : MakeResult) : AccountView :=
  { escrow with
    owner := r.escrowOwner
    data := r.escrowData
    lamports := r.escrowLamports }

/-- Witness maker account that has not signed. -/
def accMakerNoSig : AccountView :=
  ⟨makerAddr, systemID, 1000, [], false, none, none⟩

/-- Witness maker asset-A balance account with adversarial linkage: it is
token-program owned, but its recorded owner is the taker and its recorded
mint is asset B. -/
def accMakerAtaWrong : AccountView :=
  ⟨pb 12, tokenID, 20, [], false, some ⟨mintBAddr, takerAddr, 500⟩, none⟩

/-- Witness taker asset-A balance account whose recorded owner is the
maker rather than the taker. -/
def accTakerAtaAWrong : AccountView :=
  ⟨pb 9, tokenID, 20, [], false, some ⟨mintAAddr, makerAddr, 5⟩, none⟩

/-- Decidable equality of `Except` results, for concrete evaluation. -/
instance {ε α : Type} [DecidableEq ε] [DecidableEq α] :
    DecidableEq (Except ε α) := fun x y =>
  match x, y with
  | .error a, .error b =>
    if h : a = b then isTrue (congrArg Except.error h)
    else isFalse (fun hc => h (Except.error.inj hc))
  | .ok a, .ok b =>
    if h : a = b then isTrue (congrArg Except.ok h)
    else isFalse (fun hc => h (Except.ok.inj hc))
  | .error _, .ok _ => isFalse (fun hc => Except.noConfusion hc)
  | .ok _, .error _ => isFalse (fun hc => Except.noConfusion hc)

/-- Success of a monadic bind, unfolded into its two stages. -/
theorem bind_ok {α β : Type} {x : Except ProgramError α}
    {f : α → Except ProgramError β} {b : β} :
    (x >>= f) = .ok b ↔ ∃ a, x = .ok a ∧ f a = .ok b := by
  cases x <;> simp [Bind.bind, Except.bind]

/-- A guard succeeds exactly when its condition fails. -/
theorem rejectIf_ok {c : Prop} [Decidable c] {e : ProgramError} {u : Unit} :
    rejectIf c e = .ok u ↔ ¬c := by
  unfold rejectIf
  split <;> simp_all

/-- Token-account parsing succeeds exactly on a parseable account. -/
theorem parseTok_ok {a : AccountView} {t : TokAcc} :
    parseTok a = .ok t ↔ a.tok = some t := by
  unfold parseTok
  cases htok : a.tok <;> simp_all

/-- Record decoding succeeds exactly on 42 bytes, and fixes the decoded fields. -/
theorem fromBytes_ok {bs : List Nat} {e : Escrow} :
    Escrow.fromBytes bs = .ok e ↔
      bs.length = 42 ∧
      e = ⟨bs.take 32, (bs.drop 32).take 8, byteAt bs 40, byteAt bs 41⟩ := by
  unfold Escrow.fromBytes Escrow.LEN
  split <;> simp_all [eq_comm]

/-- Everything a successful `take` validation gate guarantees. -/
theorem takeValidate_ok {derive : DeriveFn}
    {taker maker mint_a mint_b taker_ata_a taker_ata_b vault maker_ata_b
      escrow : AccountView} {c : TakeCtx}
    (h : takeValidate derive taker maker mint_a mint_b taker_ata_a taker_ata_b
      vault maker_ata_b escrow = .ok c) :
    taker.isSigner = true ∧ mint_a.owner = tokenID ∧ mint_b.owner = tokenID ∧
    taker_ata_a.owner = tokenID ∧ taker_ata_b.owner = tokenID ∧
    vault.owner = tokenID ∧ maker_ata_b.owner = tokenID ∧
    taker_ata_a.tok = some c.tokTAA ∧ taker_ata_b.tok = some c.tokTAB ∧
    vault.tok = some c.tokV ∧ maker_ata_b.tok = some c.tokMAB ∧
    c.tokTAA.owner = taker.address ∧ c.tokTAA.mint = mint_a.address ∧
    c.tokTAB.owner = taker.address ∧ c.tokTAB.mint = mint_b.address ∧
    c.tokV.owner = escrow.address ∧ c.tokV.mint = mint_a.address ∧
    c.tokMAB.owner = maker.address ∧ c.tokMAB.mint = mint_b.address ∧
    Escrow.fromBytes escrow.data = .ok c.er ∧
    derive [escrowLit, maker.address, [c.er.seed], [c.er.bump]] crateID
      = escrow.address ∧
    mint_b.address = c.er.mint_b := by
  simp only [takeValidate, bind_ok, rejectIf_ok, parseTok_ok, fromBytes_ok,
    ne_eq, not_not, not_or, Bool.not_eq_false, exists_and_left] at h
  obtain ⟨hsig, ⟨hma, hmb⟩, ⟨h1, h2, h3, h4⟩, _, _, _, taa, htaa, htaao,
    htaam, _, _, tab, htab, htabo, htabm, _, _, tv, htv, htvo, htvm, _, _,
    mab, hmab, hmabo, hmabm, _, _, er, ⟨hlen, her⟩, hpda, hmbeq, _, _,
    hok⟩ := h
  simp only [pure, Except.pure, Except.ok.injEq] at hok
  subst hok
  exact ⟨hsig, hma, hmb, h1, h2, h3, h4, htaa, htab, htv, hmab, htaao,
    htaam, htabo, htabm, htvo, htvm, hmabo, hmabm,
    fromBytes_ok.mpr ⟨hlen, her⟩, hpda, hmbeq⟩

/-- Success characterization of the modelled checked transfer. -/
theorem doTransfer_ok {source : TokAcc} {mint : AccountView} {dest : TokAcc}
    {authority : Pubkey} {amount : Nat} {r : TokAcc × TokAcc × Nat} :
    doTransfer source mint dest authority amount = .ok r ↔
      ∃ d, mint.mintDecimals = some d ∧ source.mint = mint.address ∧
        dest.mint = mint.address ∧ source.owner = authority ∧
        amount ≤ source.amount ∧
        r = ({ source with amount := source.amount - amount },
             { dest with amount := dest.amount + amount }, d) := by
  unfold doTransfer
  cases hd : mint.mintDecimals with
  | none => simp
  | some d =>
    repeat' split
    all_goals simp_all [eq_comm, Nat.not_lt]

/-- Everything a successful `make` validation gate guarantees. -/
theorem makeValidate_ok {derive : DeriveFn}
    {maker mint_a mint_b maker_ata vault escrow : AccountView} {d : List Nat}
    {p : MakeParams}
    (h : makeValidate derive maker mint_a mint_b maker_ata vault escrow d
      = .ok p) :
    maker.isSigner = true ∧ mint_a.owner = tokenID ∧ mint_b.owner = tokenID ∧
    maker_ata.owner = tokenID ∧ escrow.owner = systemID ∧
    vault.owner = systemID ∧ d.length = 18 ∧
    p.amount_a = u64FromLE (d.take 8) ∧
    p.amount_b = u64FromLE ((d.drop 8).take 8) ∧
    p.seed = byteAt d 16 ∧ p.bump = byteAt d 17 ∧
    p.amount_a ≠ 0 ∧ p.amount_b ≠ 0 ∧
    derive [escrowLit, maker.address, [byteAt d 16], [byteAt d 17]] crateID
      = escrow.address := by
  simp only [makeValidate, bind_ok, rejectIf_ok, ne_eq, not_not, not_or,
    Bool.not_eq_false, exists_and_left] at h
  obtain ⟨hsig, ⟨hma, hmb⟩, hata, ⟨hesc, hvl⟩, hlen, ⟨hza, hzb⟩, hpda,
    _, _, _, _, _, _, _, hok⟩ := h
  simp only [pure, Except.pure, Except.ok.injEq] at hok
  subst hok
  exact ⟨hsig, hma, hmb, hata, hesc, hvl, hlen, rfl, rfl, rfl, rfl,
    hza, hzb, hpda⟩

/-- Everything a successful `refund` validation gate guarantees. -/
theorem refundValidate_ok {derive : DeriveFn}
    {maker mint_a mint_b maker_ata vault escrow : AccountView} {c : RefundCtx}
    (h : refundValidate derive maker mint_a mint_b maker_ata vault escrow
      = .ok c) :
    maker.isSigner = true ∧ mint_a.owner = tokenID ∧ mint_b.owner = tokenID ∧
    maker_ata.owner = tokenID ∧ vault.owner = tokenID ∧
    maker_ata.tok = some c.tokMA ∧ vault.tok = some c.tokV ∧
    c.tokMA.owner = maker.address ∧ c.tokMA.mint = mint_a.address ∧
    c.tokV.owner = escrow.address ∧ c.tokV.mint = mint_a.address ∧
    Escrow.fromBytes escrow.data = .ok c.er ∧
    derive [escrowLit, maker.address, [c.er.seed], [c.er.bump]] crateID
      = escrow.address ∧
    mint_b.address = c.er.mint_b := by
  simp only [refundValidate, bind_ok, rejectIf_ok, parseTok_ok, fromBytes_ok,
    ne_eq, not_not, not_or, Bool.not_eq_false, exists_and_left] at h
  obtain ⟨hsig, ⟨hma, hmb⟩, ⟨h1, h2⟩, _, _, _, ma, hmat, hmao, hmam,
    _, _, tv, htv, htvo, htvm, _, _, er, ⟨hlen, her⟩, hpda, hmbeq, _, _,
    hok⟩ := h
  simp only [pure, Except.pure, Except.ok.injEq] at hok
  subst hok
  exact ⟨hsig, hma, hmb, h1, h2, hmat, htv, hmao, hmam, htvo, htvm,
    fromBytes_ok.mpr ⟨hlen, her⟩, hpda, hmbeq⟩

/-- A successful `refund` run, fully characterized: its gate passed and its result is the modelled effect list and final accounts. -/
theorem refund_ok_inv {derive : DeriveFn}
    {maker mint_a mint_b maker_ata vault escrow sp tp : AccountView}
    {rest : List AccountView} {r : RefundResult}
    (h : refund derive (maker :: mint_a :: mint_b :: maker_ata :: vault ::
      escrow :: sp :: tp :: rest) = .ok r) :
    ∃ (c : RefundCtx) (da : Nat),
      refundValidate derive maker mint_a mint_b maker_ata vault escrow
        = .ok c ∧
      mint_a.mintDecimals = some da ∧
      r = { trace := [
              .transfer vault.address mint_a.address maker_ata.address
                escrow.address c.tokV.amount da true,
              .closeAcct vault.address maker.address escrow.address,
              .setLamports maker.address
                (maker.lamports + vault.lamports + escrow.lamports),
              .setLamports escrow.address 0 ],
            makerAta := { c.tokMA with
              amount := c.tokMA.amount + c.tokV.amount },
            vault := none,
            vaultOwner := systemID,
            makerLamports := maker.lamports + vault.lamports + escrow.lamports,
            escrowLamports := 0,
            escrowData := escrow.data } := by
  simp only [refund, bind_ok] at h
  obtain ⟨c, hv, he⟩ := h
  obtain ⟨_, _, _, _, _, _, _, hmao, hmam, htvo, htvm, _, _, _⟩ :=
    refundValidate_ok hv
  simp only [refundEffects, bind_ok, rejectIf_ok, ne_eq, not_not] at he
  obtain ⟨⟨tv1, ma1, da⟩, hdt, he⟩ := he
  rw [doTransfer_ok] at hdt
  obtain ⟨d, hd, _, _, _, _, heq⟩ := hdt
  simp only [Prod.mk.injEq] at heq
  obtain ⟨htv1, hma1, hda⟩ := heq
  subst htv1 hma1 hda
  obtain ⟨_, _, _, _, he⟩ := he
  simp only [pure, Except.pure, Except.ok.injEq] at he
  subst he
  exact ⟨c, da, hv, hd, rfl⟩

/-- A successful `take` run, fully characterized: its gate passed and its result is the modelled effect list and final accounts. -/
theorem take_ok_inv {derive : DeriveFn}
    {taker maker mint_a mint_b taker_ata_a taker_ata_b vault maker_ata_b
      escrow sp tp : AccountView} {rest : List AccountView} {r : TakeResult}
    (h : take derive (taker :: maker :: mint_a :: mint_b :: taker_ata_a ::
      taker_ata_b :: vault :: maker_ata_b :: escrow :: sp :: tp :: rest)
      = .ok r) :
    ∃ (c : TakeCtx) (db da : Nat),
      takeValidate derive taker maker mint_a mint_b taker_ata_a taker_ata_b
        vault maker_ata_b escrow = .ok c ∧
      mint_b.mintDecimals = some db ∧
      mint_a.mintDecimals = some da ∧
      u64FromLE c.er.amount_b ≤ c.tokTAB.amount ∧
      r = { trace := [
              .transfer taker_ata_b.address mint_b.address
                maker_ata_b.address taker.address
                (u64FromLE c.er.amount_b) db false,
              .transfer vault.address mint_a.address taker_ata_a.address
                escrow.address c.tokV.amount da true,
              .closeAcct vault.address maker.address escrow.address,
              .setLamports maker.address
                (maker.lamports + vault.lamports + escrow.lamports),
              .setLamports escrow.address 0 ],
            takerAtaA := { c.tokTAA with
              amount := c.tokTAA.amount + c.tokV.amount },
            takerAtaB := { c.tokTAB with
              amount := c.tokTAB.amount - u64FromLE c.er.amount_b },
            makerAtaB := { c.tokMAB with
              amount := c.tokMAB.amount + u64FromLE c.er.amount_b },
            vault := none,
            vaultOwner := systemID,
            makerLamports := maker.lamports + vault.lamports + escrow.lamports,
            escrowLamports := 0,
            escrowData := escrow.data } := by
  simp only [take, bind_ok] at h
  obtain ⟨c, hv, he⟩ := h
  obtain ⟨_, _, _, _, _, _, _, _, _, _, _, _, htaam, _, htabm, htvo, htvm,
    _, hmabm, _, _, _⟩ := takeValidate_ok hv
  simp only [takeEffects, bind_ok, rejectIf_ok, ne_eq, not_not] at he
  obtain ⟨⟨tab1, mab1, db'⟩, hdt1, he⟩ := he
  rw [doTransfer_ok] at hdt1
  obtain ⟨db, hdb, _, _, _, hble, heq1⟩ := hdt1
  simp only [Prod.mk.injEq] at heq1
  obtain ⟨htab1, hmab1, hdb'⟩ := heq1
  subst htab1 hmab1 hdb'
  obtain ⟨⟨tv1, taa1, da'⟩, hdt2, he⟩ := he
  rw [doTransfer_ok] at hdt2
  obtain ⟨da, hda, _, _, _, _, heq2⟩ := hdt2
  simp only [Prod.mk.injEq] at heq2
  obtain ⟨htv1, htaa1, hda'⟩ := heq2
  subst htv1 htaa1 hda'
  obtain ⟨_, _, _, _, he⟩ := he
  simp only [pure, Except.pure, Except.ok.injEq] at he
  subst he
  exact ⟨c, _, _, hv, hdb, hda, hble, rfl⟩

/-- A successful `make` run, fully characterized: its gate passed and its result is the modelled effect list and final accounts. -/
theorem make_ok_inv {derive : DeriveFn} {rentMin : Nat → Nat}
    {maker mint_a mint_b maker_ata vault escrow sp tp ap : AccountView}
    {rest : List AccountView} {d : List Nat} {r : MakeResult}
    (h : make derive rentMin (maker :: mint_a :: mint_b :: maker_ata ::
      vault :: escrow :: sp :: tp :: ap :: rest) d = .ok r) :
    ∃ (p : MakeParams) (ma : TokAcc) (da : Nat),
      makeValidate derive maker mint_a mint_b maker_ata vault escrow d
        = .ok p ∧
      maker_ata.tok = some ma ∧
      mint_a.mintDecimals = some da ∧
      rentMin Escrow.LEN ≤ maker.lamports ∧
      escrow.lamports = 0 ∧
      ma.mint = mint_a.address ∧
      ma.owner = maker.address ∧
      p.amount_a ≤ ma.amount ∧
      r = { trace := [
              .createAccount maker.address escrow.address
                (rentMin Escrow.LEN) Escrow.LEN crateID,
              .writeEscrow escrow.address
                (Escrow.toBytes
                  ⟨mint_b.address, u64LE p.amount_b, p.seed, p.bump⟩),
              .createAta maker.address vault.address escrow.address
                mint_a.address,
              .transfer maker_ata.address mint_a.address vault.address
                maker.address p.amount_a da false ],
            escrowOwner := crateID,
            escrowData := Escrow.toBytes
              ⟨mint_b.address, u64LE p.amount_b, p.seed, p.bump⟩,
            escrowLamports := rentMin Escrow.LEN,
            makerLamports := maker.lamports - rentMin Escrow.LEN,
            makerAta := { ma with amount := ma.amount - p.amount_a },
            vault := ⟨mint_a.address, escrow.address, p.amount_a⟩ } := by
  simp only [make, bind_ok] at h
  obtain ⟨p, hv, he⟩ := h
  simp only [makeEffects, bind_ok, rejectIf_ok, parseTok_ok, ne_eq, not_not,
    Nat.not_lt] at he
  obtain ⟨_, hrent, _, hesc0, ma, hma, ⟨ma1, v1, da'⟩, hdt, he⟩ := he
  rw [doTransfer_ok] at hdt
  obtain ⟨da, hda, hmam, _, hmao, hble, heq⟩ := hdt
  simp only [Prod.mk.injEq] at heq
  obtain ⟨hma1, hv1, hda'⟩ := heq
  subst hma1 hv1 hda'
  simp only [pure, Except.pure, Except.ok.injEq] at he
  subst he
  exact ⟨p, ma, _, hv, hma, hda, hrent, hesc0, hmam, hmao, hble, by
    simp [Escrow.toBytes]⟩

/-- C1: Open, Settle and Cancel each recompute the escrow record's address
from the seed tuple (literal "escrow", maker address, nonce byte,
derivation check byte, program id) — from the instruction payload in Open,
and from the bytes stored in the record (offsets 40 and 41) in Settle and
Cancel — and return an error, performing no transfer, whenever the derived
address differs byte-for-byte from the supplied record account's address. -/
theorem open_settle_cancel_reject_pda_mismatch :
    (∀ (derive : DeriveFn) (rentMin : Nat → Nat)
      (maker mint_a mint_b maker_ata vault escrow sp tp ap : AccountView)
      (rest : List AccountView) (d : List Nat),
      derive [escrowLit, maker.address, [byteAt d 16], [byteAt d 17]]
          crateID ≠ escrow.address →
      isErr (make derive rentMin (maker :: mint_a :: mint_b :: maker_ata ::
        vault :: escrow :: sp :: tp :: ap :: rest) d) = true) ∧
    (∀ (derive : DeriveFn)
      (taker maker mint_a mint_b taker_ata_a taker_ata_b vault maker_ata_b
        escrow sp tp : AccountView) (rest : List AccountView),
      derive [escrowLit, maker.address, [byteAt escrow.data 40],
          [byteAt escrow.data 41]] crateID ≠ escrow.address →
      isErr (take derive (taker :: maker :: mint_a :: mint_b ::
        taker_ata_a :: taker_ata_b :: vault :: maker_ata_b :: escrow ::
        sp :: tp :: rest)) = true) ∧
    (∀ (derive : DeriveFn)
      (maker mint_a mint_b maker_ata vault escrow sp tp : AccountView)
      (rest : List AccountView),
      derive [escrowLit, maker.address, [byteAt escrow.data 40],
          [byteAt escrow.data 41]] crateID ≠ escrow.address →
      isErr (refund derive (maker :: mint_a :: mint_b :: maker_ata ::
        vault :: escrow :: sp :: tp :: rest)) = true) := by
  refine ⟨?_, ?_, ?_⟩
  · intro derive rentMin maker mint_a mint_b maker_ata vault escrow sp tp ap
      rest d hne
    cases hres : make derive rentMin (maker :: mint_a :: mint_b ::
      maker_ata :: vault :: escrow :: sp :: tp :: ap :: rest) d with
    | error e => simp [isErr]
    | ok r =>
      exfalso
      obtain ⟨p, _, _, hv, _⟩ := make_ok_inv hres
      exact hne (makeValidate_ok hv).2.2.2.2.2.2.2.2.2.2.2.2.2
  · intro derive taker maker mint_a mint_b taker_ata_a taker_ata_b vault
      maker_ata_b escrow sp tp rest hne
    cases hres : take derive (taker :: maker :: mint_a :: mint_b ::
      taker_ata_a :: taker_ata_b :: vault :: maker_ata_b :: escrow ::
      sp :: tp :: rest) with
    | error e => simp [isErr]
    | ok r =>
      exfalso
      obtain ⟨c, _, _, hv, _⟩ := take_ok_inv hres
      obtain ⟨_, _, _, _, _, _, _, _, _, _, _, _, _, _, _, _, _, _, _,
        hfb, hpda, _⟩ := takeValidate_ok hv
      obtain ⟨_, herq⟩ := fromBytes_ok.mp hfb
      rw [herq] at hpda
      exact hne hpda
  · intro derive maker mint_a mint_b maker_ata vault escrow sp tp rest hne
    cases hres : refund derive (maker :: mint_a :: mint_b :: maker_ata ::
      vault :: escrow :: sp :: tp :: rest) with
    | error e => simp [isErr]
    | ok r =>
      exfalso
      obtain ⟨c, _, hv, _⟩ := refund_ok_inv hres
      obtain ⟨_, _, _, _, _, _, _, _, _, _, _, hfb, hpda, _⟩ :=
        refundValidate_ok hv
      obtain ⟨_, herq⟩ := fromBytes_ok.mp hfb
      rw [herq] at hpda
      exact hne hpda

/-- Witness for C1: with a derivation function that yields an address
different from the witness escrow account's, all three handlers reject
the otherwise-valid witness inputs. -/
theorem open_settle_cancel_reject_pda_mismatch_witness :
    isErr (make deriveBad rentMinC makeAccs makeDataC) = true ∧
    isErr (take deriveBad takeAccs) = true ∧
    isErr (refund deriveBad refundAccs) = true :=
  ⟨open_settle_cancel_reject_pda_mismatch.1 deriveBad rentMinC accMaker
      accMintA accMintB accMakerAta accVaultSlot accEscrowSlot accSys
      accTokProg accAtaProg [] makeDataC (by decide),
   open_settle_cancel_reject_pda_mismatch.2.1 deriveBad accTaker accMakerRO
      accMintA accMintB accTakerAtaA accTakerAtaB accVault accMakerAtaB
      accEscrow accSys accTokProg [] (by decide),
   open_settle_cancel_reject_pda_mismatch.2.2 deriveBad accMaker accMintA
      accMintB accMakerAta accVault accEscrow accSys accTokProg []
      (by decide)⟩

/-- C2: a successful Settle issues, in order: a transfer of exactly the
record's wanted amount of asset B from the taker's to the maker's asset-B
account authorized by the taker; a transfer of the custodial account's
current entire balance to the taker's asset-A account authorized by the
derived capability; the close of the custodial account with its deposit
sent to the maker; and the addition of the record's lamports to the maker
followed by zeroing the record's lamports, while the record's 42 data
bytes are left unscrubbed.  Balances move conservatively. -/
theorem settle_effects_and_conservation
    (derive : DeriveFn)
    (taker maker mint_a mint_b taker_ata_a taker_ata_b vault maker_ata_b
      escrow sp tp : AccountView) (rest : List AccountView) (r : TakeResult)
    (taa tab tv mab : TokAcc) (er : Escrow) (db da : Nat)
    (h : take derive (taker :: maker :: mint_a :: mint_b :: taker_ata_a ::
      taker_ata_b :: vault :: maker_ata_b :: escrow :: sp :: tp :: rest)
      = .ok r)
    (htaa : taker_ata_a.tok = some taa) (htab : taker_ata_b.tok = some tab)
    (htv : vault.tok = some tv) (hmab : maker_ata_b.tok = some mab)
    (her : Escrow.fromBytes escrow.data = .ok er)
    (hdb : mint_b.mintDecimals = some db)
    (hda : mint_a.mintDecimals = some da) :
    r.trace = [
      .transfer taker_ata_b.address mint_b.address maker_ata_b.address
        taker.address (u64FromLE er.amount_b) db false,
      .transfer vault.address mint_a.address taker_ata_a.address
        escrow.address tv.amount da true,
      .closeAcct vault.address maker.address escrow.address,
      .setLamports maker.address
        (maker.lamports + vault.lamports + escrow.lamports),
      .setLamports escrow.address 0 ] ∧
    r.makerAtaB.amount = mab.amount + u64FromLE er.amount_b ∧
    r.takerAtaA.amount = taa.amount + tv.amount ∧
    r.takerAtaB.amount + u64FromLE er.amount_b = tab.amount ∧
    r.takerAtaB.amount + r.makerAtaB.amount = tab.amount + mab.amount ∧
    r.vault = none ∧
    r.makerLamports = maker.lamports + vault.lamports + escrow.lamports ∧
    r.escrowLamports = 0 ∧
    r.escrowData = escrow.data ∧
    escrow.data.length = 42 := by
  obtain ⟨c, db', da', hv, hdb', hda', hble, hr⟩ := take_ok_inv h
  obtain ⟨_, _, _, _, _, _, _, htaa', htab', htv', hmab', _, _, _, _, _, _,
    _, _, hfb, _, _⟩ := takeValidate_ok hv
  rw [htaa] at htaa'
  rw [htab] at htab'
  rw [htv] at htv'
  rw [hmab] at hmab'
  rw [hdb] at hdb'
  rw [hda] at hda'
  rw [her] at hfb
  obtain rfl : taa = c.tokTAA := Option.some.inj htaa'
  obtain rfl : tab = c.tokTAB := Option.some.inj htab'
  obtain rfl : tv = c.tokV := Option.some.inj htv'
  obtain rfl : mab = c.tokMAB := Option.some.inj hmab'
  obtain rfl : db = db' := Option.some.inj hdb'
  obtain rfl : da = da' := Option.some.inj hda'
  obtain rfl : er = c.er := Except.ok.inj hfb
  subst hr
  refine ⟨rfl, rfl, rfl, Nat.sub_add_cancel hble,
    by
      show (c.tokTAB.amount - u64FromLE c.er.amount_b) +
        (c.tokMAB.amount + u64FromLE c.er.amount_b)
        = c.tokTAB.amount + c.tokMAB.amount
      omega,
    rfl, rfl, rfl, rfl, (fromBytes_ok.mp her).1⟩

/-- Witness for C2: the concrete settle run moves 30 of asset B to the
maker, sweeps the 70 in custody to the taker, closes the vault and zeroes
the record's lamports. -/
theorem settle_effects_and_conservation_witness :
    takeResC.trace = [
      .transfer (pb 10) mintBAddr (pb 11) takerAddr 30 9 false,
      .transfer vaultAddr mintAAddr (pb 9) escrowAddr 70 6 true,
      .closeAcct vaultAddr makerAddr escrowAddr,
      .setLamports makerAddr 95,
      .setLamports escrowAddr 0 ] ∧
    takeResC.makerAtaB.amount = 2 + 30 ∧
    takeResC.takerAtaA.amount = 5 + 70 ∧
    takeResC.takerAtaB.amount + 30 = 100 ∧
    takeResC.takerAtaB.amount + takeResC.makerAtaB.amount = 100 + 2 ∧
    takeResC.vault = none ∧
    takeResC.makerLamports = 50 + 30 + 15 ∧
    takeResC.escrowLamports = 0 ∧
    takeResC.escrowData = escrowBytesC ∧
    escrowBytesC.length = 42 :=
  settle_effects_and_conservation deriveC accTaker accMakerRO accMintA
    accMintB accTakerAtaA accTakerAtaB accVault accMakerAtaB accEscrow
    accSys accTokProg [] takeResC ⟨mintAAddr, takerAddr, 5⟩
    ⟨mintBAddr, takerAddr, 100⟩ ⟨mintAAddr, escrowAddr, 70⟩
    ⟨mintBAddr, makerAddr, 2⟩ ⟨mintBAddr, u64LE 30, 7, 254⟩ 9 6
    (by decide) rfl rfl rfl rfl (by decide) rfl rfl

/-- C3: at most one of Settle and Cancel succeeds on an open record: a
successful run of either closes the custodial account (its slot leaves the
token program and returns to the system program), and any Settle or Cancel
invocation whose custodial account is not token-program owned fails with
an error — never a silent no-op. -/
theorem settle_cancel_mutual_exclusion :
    (∀ (derive : DeriveFn)
      (taker maker mint_a mint_b taker_ata_a taker_ata_b vault maker_ata_b
        escrow sp tp : AccountView) (rest : List AccountView) (r : TakeResult),
      take derive (taker :: maker :: mint_a :: mint_b :: taker_ata_a ::
        taker_ata_b :: vault :: maker_ata_b :: escrow :: sp :: tp :: rest)
        = .ok r →
      r.vault = none ∧ r.vaultOwner = systemID) ∧
    (∀ (derive : DeriveFn)
      (maker mint_a mint_b maker_ata vault escrow sp tp : AccountView)
      (rest : List AccountView) (r : RefundResult),
      refund derive (maker :: mint_a :: mint_b :: maker_ata :: vault ::
        escrow :: sp :: tp :: rest) = .ok r →
      r.vault = none ∧ r.vaultOwner = systemID) ∧
    systemID ≠ tokenID ∧
    (∀ (derive : DeriveFn)
      (taker maker mint_a mint_b taker_ata_a taker_ata_b vault maker_ata_b
        escrow sp tp : AccountView) (rest : List AccountView),
      vault.owner ≠ tokenID →
      isErr (take derive (taker :: maker :: mint_a :: mint_b ::
        taker_ata_a :: taker_ata_b :: vault :: maker_ata_b :: escrow ::
        sp :: tp :: rest)) = true) ∧
    (∀ (derive : DeriveFn)
      (maker mint_a mint_b maker_ata vault escrow sp tp : AccountView)
      (rest : List AccountView),
      vault.owner ≠ tokenID →
      isErr (refund derive (maker :: mint_a :: mint_b :: maker_ata ::
        vault :: escrow :: sp :: tp :: rest)) = true) := by
  refine ⟨?_, ?_, by decide, ?_, ?_⟩
  · intro derive taker maker mint_a mint_b taker_ata_a taker_ata_b vault
      maker_ata_b escrow sp tp rest r h
    obtain ⟨c, db, da, hv, _, _, _, hr⟩ := take_ok_inv h
    subst hr
    exact ⟨rfl, rfl⟩
  · intro derive maker mint_a mint_b maker_ata vault escrow sp tp rest r h
    obtain ⟨c, da, hv, _, hr⟩ := refund_ok_inv h
    subst hr
    exact ⟨rfl, rfl⟩
  · intro derive taker maker mint_a mint_b taker_ata_a taker_ata_b vault
      maker_ata_b escrow sp tp rest hno
    cases hres : take derive (taker :: maker :: mint_a :: mint_b ::
      taker_ata_a :: taker_ata_b :: vault :: maker_ata_b :: escrow ::
      sp :: tp :: rest) with
    | error e => simp [isErr]
    | ok r =>
      exfalso
      obtain ⟨c, _, _, hv, _⟩ := take_ok_inv hres
      exact hno (takeValidate_ok hv).2.2.2.2.2.1
  · intro derive maker mint_a mint_b maker_ata vault escrow sp tp rest hno
    cases hres : refund derive (maker :: mint_a :: mint_b :: maker_ata ::
      vault :: escrow :: sp :: tp :: rest) with
    | error e => simp [isErr]
    | ok r =>
      exfalso
      obtain ⟨c, _, hv, _⟩ := refund_ok_inv hres
      exact hno (refundValidate_ok hv).2.2.2.2.1

/-- Witness for C3: the concrete settle and cancel runs leave the vault
closed and system-owned, and both handlers reject the witness inputs once
the vault slot is back with the system program. -/
theorem settle_cancel_mutual_exclusion_witness :
    (takeResC.vault = none ∧ takeResC.vaultOwner = systemID) ∧
    (refundResC.vault = none ∧ refundResC.vaultOwner = systemID) ∧
    isErr (take deriveC (accTaker :: accMakerRO :: accMintA :: accMintB ::
      accTakerAtaA :: accTakerAtaB :: accVaultClosed :: accMakerAtaB ::
      accEscrow :: accSys :: accTokProg :: [])) = true ∧
    isErr (refund deriveC (accMaker :: accMintA :: accMintB :: accMakerAta ::
      accVaultClosed :: accEscrow :: accSys :: accTokProg :: [])) = true :=
  ⟨settle_cancel_mutual_exclusion.1 deriveC accTaker accMakerRO accMintA
      accMintB accTakerAtaA accTakerAtaB accVault accMakerAtaB accEscrow
      accSys accTokProg [] takeResC (by decide),
   settle_cancel_mutual_exclusion.2.1 deriveC accMaker accMintA accMintB
      accMakerAta accVault accEscrow accSys accTokProg [] refundResC
      (by decide),
   settle_cancel_mutual_exclusion.2.2.2.1 deriveC accTaker accMakerRO
      accMintA accMintB accTakerAtaA accTakerAtaB accVaultClosed
      accMakerAtaB accEscrow accSys accTokProg [] (by decide),
   settle_cancel_mutual_exclusion.2.2.2.2 deriveC accMaker accMintA
      accMintB accMakerAta accVaultClosed accEscrow accSys accTokProg []
      (by decide)⟩

/-- C4: a successful Cancel transfers the custodial account's full current
asset-A balance back to the maker's asset-A account authorized by the
derived capability, closes the custodial account with its deposit returned
to the maker, and zeroes the record's lamports; its trace holds exactly
one token transfer, so no asset-B transfer occurs. -/
theorem cancel_effects
    (derive : DeriveFn)
    (maker mint_a mint_b maker_ata vault escrow sp tp : AccountView)
    (rest : List AccountView) (r : RefundResult) (ma tv : TokAcc) (da : Nat)
    (h : refund derive (maker :: mint_a :: mint_b :: maker_ata :: vault ::
      escrow :: sp :: tp :: rest) = .ok r)
    (hma : maker_ata.tok = some ma) (htv : vault.tok = some tv)
    (hda : mint_a.mintDecimals = some da) :
    r.trace = [
      .transfer vault.address mint_a.address maker_ata.address
        escrow.address tv.amount da true,
      .closeAcct vault.address maker.address escrow.address,
      .setLamports maker.address
        (maker.lamports + vault.lamports + escrow.lamports),
      .setLamports escrow.address 0 ] ∧
    r.makerAta.amount = ma.amount + tv.amount ∧
    r.vault = none ∧
    r.makerLamports = maker.lamports + vault.lamports + escrow.lamports ∧
    r.escrowLamports = 0 ∧
    r.escrowData = escrow.data ∧
    r.trace.countP Effect.isTransfer = 1 := by
  obtain ⟨c, da', hv, hda', hr⟩ := refund_ok_inv h
  obtain ⟨_, _, _, _, _, hma', htv', _, _, _, _, _, _, _⟩ :=
    refundValidate_ok hv
  rw [hma] at hma'
  rw [htv] at htv'
  rw [hda] at hda'
  obtain rfl : ma = c.tokMA := Option.some.inj hma'
  obtain rfl : tv = c.tokV := Option.some.inj htv'
  obtain rfl : da = da' := Option.some.inj hda'
  subst hr
  exact ⟨rfl, rfl, rfl, rfl, rfl, rfl, rfl⟩

/-- Witness for C4: the concrete cancel run returns the 70 in custody to
the maker's asset-A account, closes the vault, zeroes the record's
lamports, and issues exactly one token transfer. -/
theorem cancel_effects_witness :
    refundResC.trace = [
      .transfer vaultAddr mintAAddr (pb 12) escrowAddr 70 6 true,
      .closeAcct vaultAddr makerAddr escrowAddr,
      .setLamports makerAddr (1000 + 30 + 15),
      .setLamports escrowAddr 0 ] ∧
    refundResC.makerAta.amount = 500 + 70 ∧
    refundResC.vault = none ∧
    refundResC.makerLamports = 1000 + 30 + 15 ∧
    refundResC.escrowLamports = 0 ∧
    refundResC.escrowData = escrowBytesC ∧
    refundResC.trace.countP Effect.isTransfer = 1 :=
  cancel_effects deriveC accMaker accMintA accMintB accMakerAta accVault
    accEscrow accSys accTokProg [] refundResC ⟨mintAAddr, makerAddr, 500⟩
    ⟨mintAAddr, escrowAddr, 70⟩ 6 (by decide) rfl rfl rfl

/-- C5: a successful Open creates the record account funded to the rent
minimum with exactly 42 bytes in the layout
wanted_asset_id[32] ++ wanted_amount[8, little-endian] ++ nonce ++ check
byte, owned by the program id and populated from the payload; it then
creates the custodial asset-A account under the record's authority and
moves exactly amount_a from the maker's asset-A account into custody via a
decimals-checked transfer. -/
theorem open_effects
    (derive : DeriveFn) (rentMin : Nat → Nat)
    (maker mint_a mint_b maker_ata vault escrow sp tp ap : AccountView)
    (rest : List AccountView) (d : List Nat) (r : MakeResult) (ma : TokAcc)
    (da : Nat)
    (h : make derive rentMin (maker :: mint_a :: mint_b :: maker_ata ::
      vault :: escrow :: sp :: tp :: ap :: rest) d = .ok r)
    (hma : maker_ata.tok = some ma)
    (hda : mint_a.mintDecimals = some da)
    (hlen32 : mint_b.address.length = 32) :
    r.trace = [
      .createAccount maker.address escrow.address (rentMin Escrow.LEN)
        Escrow.LEN crateID,
      .writeEscrow escrow.address (mint_b.address ++
        u64LE (u64FromLE ((d.drop 8).take 8)) ++ [byteAt d 16, byteAt d 17]),
      .createAta maker.address vault.address escrow.address mint_a.address,
      .transfer maker_ata.address mint_a.address vault.address maker.address
        (u64FromLE (d.take 8)) da false ] ∧
    r.escrowOwner = crateID ∧
    r.escrowData = mint_b.address ++ u64LE (u64FromLE ((d.drop 8).take 8))
      ++ [byteAt d 16, byteAt d 17] ∧
    r.escrowData.length = 42 ∧
    r.escrowLamports = rentMin Escrow.LEN ∧
    r.vault = ⟨mint_a.address, escrow.address, u64FromLE (d.take 8)⟩ ∧
    r.makerAta.amount + u64FromLE (d.take 8) = ma.amount := by
  obtain ⟨p, ma', da', hv, hma', hda', _, _, _, _, hble, hr⟩ :=
    make_ok_inv h
  obtain ⟨_, _, _, _, _, _, _, hpa, hpb, hps, hpbu, _, _, _⟩ :=
    makeValidate_ok hv
  rw [hma] at hma'
  rw [hda] at hda'
  obtain rfl : ma = ma' := Option.some.inj hma'
  obtain rfl : da = da' := Option.some.inj hda'
  subst hr
  rw [← hpa, ← hpb, ← hps, ← hpbu]
  refine ⟨rfl, rfl, rfl, ?_, rfl, rfl, Nat.sub_add_cancel hble⟩
  show (Escrow.toBytes ⟨mint_b.address, u64LE p.amount_b, p.seed,
    p.bump⟩).length = 42
  simp [Escrow.toBytes, u64LE, hlen32]

/-- Witness for C5: the concrete open run creates the 42-byte record,
funds it with the rent minimum, owns it by the program id, creates the
custodial account under the record's authority and moves 70 of asset A
into it. -/
theorem open_effects_witness :
    makeResC.trace = [
      .createAccount makerAddr escrowAddr (rentMinC Escrow.LEN) Escrow.LEN
        crateID,
      .writeEscrow escrowAddr (mintBAddr ++ u64LE 30 ++ [7, 254]),
      .createAta makerAddr vaultAddr escrowAddr mintAAddr,
      .transfer (pb 12) mintAAddr vaultAddr makerAddr 70 6 false ] ∧
    makeResC.escrowOwner = crateID ∧
    makeResC.escrowData = mintBAddr ++ u64LE 30 ++ [7, 254] ∧
    makeResC.escrowData.length = 42 ∧
    makeResC.escrowLamports = rentMinC Escrow.LEN ∧
    makeResC.vault = ⟨mintAAddr, escrowAddr, 70⟩ ∧
    makeResC.makerAta.amount + 70 = 500 :=
  open_effects deriveC rentMinC accMaker accMintA accMintB accMakerAta
    accVaultSlot accEscrowSlot accSys accTokProg accAtaProg [] makeDataC
    makeResC ⟨mintAAddr, makerAddr, 500⟩ 6 (by decide) rfl rfl (by decide)

/-- C6: both Settle and Cancel return an error, performing no transfer,
whenever the supplied asset-B descriptor's address differs from the
wanted_asset_id stored in the record's first 32 bytes — in Cancel too,
where asset B never moves. -/
theorem settle_cancel_reject_wrong_mint_b :
    (∀ (derive : DeriveFn)
      (taker maker mint_a mint_b taker_ata_a taker_ata_b vault maker_ata_b
        escrow sp tp : AccountView) (rest : List AccountView),
      mint_b.address ≠ escrow.data.take 32 →
      isErr (take derive (taker :: maker :: mint_a :: mint_b ::
        taker_ata_a :: taker_ata_b :: vault :: maker_ata_b :: escrow ::
        sp :: tp :: rest)) = true) ∧
    (∀ (derive : DeriveFn)
      (maker mint_a mint_b maker_ata vault escrow sp tp : AccountView)
      (rest : List AccountView),
      mint_b.address ≠ escrow.data.take 32 →
      isErr (refund derive (maker :: mint_a :: mint_b :: maker_ata ::
        vault :: escrow :: sp :: tp :: rest)) = true) := by
  constructor
  · intro derive taker maker mint_a mint_b taker_ata_a taker_ata_b vault
      maker_ata_b escrow sp tp rest hne
    cases hres : take derive (taker :: maker :: mint_a :: mint_b ::
      taker_ata_a :: taker_ata_b :: vault :: maker_ata_b :: escrow ::
      sp :: tp :: rest) with
    | error e => simp [isErr]
    | ok r =>
      exfalso
      obtain ⟨c, _, _, hv, _⟩ := take_ok_inv hres
      obtain ⟨_, _, _, _, _, _, _, _, _, _, _, _, _, _, _, _, _, _, _,
        hfb, _, hmbeq⟩ := takeValidate_ok hv
      obtain ⟨_, herq⟩ := fromBytes_ok.mp hfb
      rw [herq] at hmbeq
      exact hne hmbeq
  · intro derive maker mint_a mint_b maker_ata vault escrow sp tp rest hne
    cases hres : refund derive (maker :: mint_a :: mint_b :: maker_ata ::
      vault :: escrow :: sp :: tp :: rest) with
    | error e => simp [isErr]
    | ok r =>
      exfalso
      obtain ⟨c, _, hv, _⟩ := refund_ok_inv hres
      obtain ⟨_, _, _, _, _, _, _, _, _, _, _, hfb, _, hmbeq⟩ :=
        refundValidate_ok hv
      obtain ⟨_, herq⟩ := fromBytes_ok.mp hfb
      rw [herq] at hmbeq
      exact hne hmbeq

/-- Witness for C6: supplying the asset-A descriptor in the asset-B
position (its address differs from the record's stored wanted_asset_id)
makes both Settle and Cancel reject. -/
theorem settle_cancel_reject_wrong_mint_b_witness :
    isErr (take deriveC (accTaker :: accMakerRO :: accMintA :: accMintA ::
      accTakerAtaA :: accTakerAtaB :: accVault :: accMakerAtaB ::
      accEscrow :: accSys :: accTokProg :: [])) = true ∧
    isErr (refund deriveC (accMaker :: accMintA :: accMintA ::
      accMakerAta :: accVault :: accEscrow :: accSys :: accTokProg :: []))
      = true :=
  ⟨settle_cancel_reject_wrong_mint_b.1 deriveC accTaker accMakerRO accMintA
      accMintA accTakerAtaA accTakerAtaB accVault accMakerAtaB accEscrow
      accSys accTokProg [] (by decide),
   settle_cancel_reject_wrong_mint_b.2 deriveC accMaker accMintA accMintA
      accMakerAta accVault accEscrow accSys accTokProg [] (by decide)⟩

/-- C7: Open requires both the record slot and the custodial slot to still
be system-program owned and rejects otherwise; a successful Open makes the
record account program-owned, so a second Open supplying the resulting
record account fails. -/
theorem open_succeeds_at_most_once :
    (∀ (derive : DeriveFn) (rentMin : Nat → Nat)
      (maker mint_a mint_b maker_ata vault escrow sp tp ap : AccountView)
      (rest : List AccountView) (d : List Nat),
      escrow.owner ≠ systemID ∨ vault.owner ≠ systemID →
      isErr (make derive rentMin (maker :: mint_a :: mint_b :: maker_ata ::
        vault :: escrow :: sp :: tp :: ap :: rest) d) = true) ∧
    (∀ (derive : DeriveFn) (rentMin : Nat → Nat)
      (maker mint_a mint_b maker_ata vault escrow sp tp ap : AccountView)
      (rest : List AccountView) (d : List Nat) (r : MakeResult),
      make derive rentMin (maker :: mint_a :: mint_b :: maker_ata ::
        vault :: escrow :: sp :: tp :: ap :: rest) d = .ok r →
      r.escrowOwner = crateID ∧ crateID ≠ systemID ∧
      (∀ (derive2 : DeriveFn) (rentMin2 : Nat → Nat)
        (maker2 mint_a2 mint_b2 maker_ata2 vault2 sp2 tp2 ap2 : AccountView)
        (rest2 : List AccountView) (d2 : List Nat),
        isErr (make derive2 rentMin2 (maker2 :: mint_a2 :: mint_b2 ::
          maker_ata2 :: vault2 :: reopenView escrow r ::
          sp2 :: tp2 :: ap2 :: rest2) d2) = true)) := by
  have part1 : ∀ (derive : DeriveFn) (rentMin : Nat → Nat)
      (maker mint_a mint_b maker_ata vault escrow sp tp ap : AccountView)
      (rest : List AccountView) (d : List Nat),
      escrow.owner ≠ systemID ∨ vault.owner ≠ systemID →
      isErr (make derive rentMin (maker :: mint_a :: mint_b :: maker_ata ::
        vault :: escrow :: sp :: tp :: ap :: rest) d) = true := by
    intro derive rentMin maker mint_a mint_b maker_ata vault escrow sp tp ap
      rest d hor
    cases hres : make derive rentMin (maker :: mint_a :: mint_b ::
      maker_ata :: vault :: escrow :: sp :: tp :: ap :: rest) d with
    | error e => simp [isErr]
    | ok r =>
      exfalso
      obtain ⟨p, _, _, hv, _⟩ := make_ok_inv hres
      obtain ⟨_, _, _, _, hesc, hvl, _⟩ := makeValidate_ok hv
      rcases hor with hne | hne
      · exact hne hesc
      · exact hne hvl
  refine ⟨part1, ?_⟩
  intro derive rentMin maker mint_a mint_b maker_ata vault escrow sp tp ap
    rest d r h
  obtain ⟨p, ma, da, hv, _, _, _, _, _, _, _, hr⟩ := make_ok_inv h
  have hcrate : r.escrowOwner = crateID := by rw [hr]
  refine ⟨hcrate, by decide, ?_⟩
  intro derive2 rentMin2 maker2 mint_a2 mint_b2 maker_ata2 vault2 sp2 tp2
    ap2 rest2 d2
  apply part1
  left
  show (reopenView escrow r).owner ≠ systemID
  show r.escrowOwner ≠ systemID
  rw [hcrate]
  decide

/-- Witness for C7: Open rejects the witness inputs when the record slot
is already program-owned, and after the concrete successful Open the
resulting record account makes a second identical Open fail. -/
theorem open_succeeds_at_most_once_witness :
    isErr (make deriveC rentMinC (accMaker :: accMintA :: accMintB ::
      accMakerAta :: accVaultSlot :: accEscrow :: accSys :: accTokProg ::
      accAtaProg :: []) makeDataC) = true ∧
    makeResC.escrowOwner = crateID ∧ crateID ≠ systemID ∧
    isErr (make deriveC rentMinC (accMaker :: accMintA :: accMintB ::
      accMakerAta :: accVaultSlot :: reopenView accEscrowSlot makeResC ::
      accSys :: accTokProg :: accAtaProg :: []) makeDataC) = true :=
  ⟨open_succeeds_at_most_once.1 deriveC rentMinC accMaker accMintA accMintB
      accMakerAta accVaultSlot accEscrow accSys accTokProg accAtaProg []
      makeDataC (Or.inl (by decide)),
   (open_succeeds_at_most_once.2 deriveC rentMinC accMaker accMintA
      accMintB accMakerAta accVaultSlot accEscrowSlot accSys accTokProg
      accAtaProg [] makeDataC makeResC (by decide)).1,
   (open_succeeds_at_most_once.2 deriveC rentMinC accMaker accMintA
      accMintB accMakerAta accVaultSlot accEscrowSlot accSys accTokProg
      accAtaProg [] makeDataC makeResC (by decide)).2.1,
   (open_succeeds_at_most_once.2 deriveC rentMinC accMaker accMintA
      accMintB accMakerAta accVaultSlot accEscrowSlot accSys accTokProg
      accAtaProg [] makeDataC makeResC (by decide)).2.2 deriveC rentMinC
      accMaker accMintA accMintB accMakerAta accVaultSlot accSys accTokProg
      accAtaProg [] makeDataC⟩

/-- C8: Open fails with an error, and performs no effect, whenever the
payload's amount_a or amount_b little-endian field decodes to zero,
regardless of every other input. -/
theorem open_rejects_zero_amounts :
    ∀ (derive : DeriveFn) (rentMin : Nat → Nat)
      (accounts : List AccountView) (d : List Nat),
      u64FromLE (d.take 8) = 0 ∨ u64FromLE ((d.drop 8).take 8) = 0 →
      isErr (make derive rentMin accounts d) = true := by
  intro derive rentMin accounts d hz
  cases hres : make derive rentMin accounts d with
  | error e => simp [isErr]
  | ok r =>
    exfalso
    rcases accounts with _ | ⟨a1, _ | ⟨a2, _ | ⟨a3, _ | ⟨a4, _ | ⟨a5,
      _ | ⟨a6, _ | ⟨a7, _ | ⟨a8, _ | ⟨a9, rest⟩⟩⟩⟩⟩⟩⟩⟩⟩
    all_goals try { simp only [make] at hres; exact Except.noConfusion hres }
    obtain ⟨p, _, _, hv, _⟩ := make_ok_inv hres
    obtain ⟨_, _, _, _, _, _, _, hpa, hpb, _, _, hza, hzb, _⟩ :=
      makeValidate_ok hv
    rcases hz with hz | hz
    · exact hza (hpa.trans hz)
    · exact hzb (hpb.trans hz)

/-- Witness for C8: an Open whose payload carries amount_a = 0 is
rejected on otherwise-valid witness inputs. -/
theorem open_rejects_zero_amounts_witness :
    isErr (make deriveC rentMinC makeAccs
      (u64LE 0 ++ u64LE 30 ++ [7, 254])) = true :=
  open_rejects_zero_amounts deriveC rentMinC makeAccs
    (u64LE 0 ++ u64LE 30 ++ [7, 254]) (Or.inl (by decide))

/-- C9 counterexample: two different violated preconditions are rejected
with the same error value, so the errors are not distinct per
precondition.  The first run violates only the signer precondition (its
derivation matches), the second satisfies the signer precondition and
violates only the derivation check; both return `InvalidAccountOwner`. -/
theorem open_error_codes_not_distinct :
    accMakerNoSig.isSigner = false ∧
    deriveC [escrowLit, accMakerNoSig.address, [byteAt makeDataC 16],
      [byteAt makeDataC 17]] crateID = accEscrowSlot.address ∧
    make deriveC rentMinC (accMakerNoSig :: accMintA :: accMintB ::
      accMakerAta :: accVaultSlot :: accEscrowSlot :: accSys ::
      accTokProg :: accAtaProg :: []) makeDataC
      = .error .InvalidAccountOwner ∧
    accMaker.isSigner = true ∧
    deriveBad [escrowLit, accMaker.address, [byteAt makeDataC 16],
      [byteAt makeDataC 17]] crateID ≠ accEscrowSlot.address ∧
    make deriveBad rentMinC makeAccs makeDataC
      = .error .InvalidAccountOwner := by
  refine ⟨rfl, by decide, by decide, rfl, by decide, by decide⟩

/-- C9 (amended): every precondition of Open is enforced — too few
accounts, a missing maker signature, wrong ownership of the asset
descriptors, of the maker's balance account or of the two fresh slots, a
payload that is not 18 bytes, a zero amount, and a derivation mismatch
each make the handler return an error before any effect — with
`NotEnoughAccountKeys` for the account count, `InvalidAccountOwner` for
the signer, ownership and derivation groups and `InvalidInstructionData`
for the payload-length and zero-amount group; the error codes distinguish
those groups but are not pairwise distinct per precondition. -/
theorem open_enforces_each_precondition :
    (∀ (derive : DeriveFn) (rentMin : Nat → Nat)
      (accounts : List AccountView) (d : List Nat),
      accounts.length < 9 →
      make derive rentMin accounts d = .error .NotEnoughAccountKeys) ∧
    (∀ (derive : DeriveFn) (rentMin : Nat → Nat)
      (maker mint_a mint_b maker_ata vault escrow sp tp ap : AccountView)
      (rest : List AccountView) (d : List Nat),
      maker.isSigner = false →
      make derive rentMin (maker :: mint_a :: mint_b :: maker_ata ::
        vault :: escrow :: sp :: tp :: ap :: rest) d
        = .error .InvalidAccountOwner) ∧
    (∀ (derive : DeriveFn) (rentMin : Nat → Nat)
      (maker mint_a mint_b maker_ata vault escrow sp tp ap : AccountView)
      (rest : List AccountView) (d : List Nat),
      maker.isSigner = true →
      mint_a.owner ≠ tokenID ∨ mint_b.owner ≠ tokenID →
      make derive rentMin (maker :: mint_a :: mint_b :: maker_ata ::
        vault :: escrow :: sp :: tp :: ap :: rest) d
        = .error .InvalidAccountOwner) ∧
    (∀ (derive : DeriveFn) (rentMin : Nat → Nat)
      (maker mint_a mint_b maker_ata vault escrow sp tp ap : AccountView)
      (rest : List AccountView) (d : List Nat),
      maker.isSigner = true → mint_a.owner = tokenID →
      mint_b.owner = tokenID → maker_ata.owner ≠ tokenID →
      make derive rentMin (maker :: mint_a :: mint_b :: maker_ata ::
        vault :: escrow :: sp :: tp :: ap :: rest) d
        = .error .InvalidAccountOwner) ∧
    (∀ (derive : DeriveFn) (rentMin : Nat → Nat)
      (maker mint_a mint_b maker_ata vault escrow sp tp ap : AccountView)
      (rest : List AccountView) (d : List Nat),
      maker.isSigner = true → mint_a.owner = tokenID →
      mint_b.owner = tokenID → maker_ata.owner = tokenID →
      escrow.owner ≠ systemID ∨ vault.owner ≠ systemID →
      make derive rentMin (maker :: mint_a :: mint_b :: maker_ata ::
        vault :: escrow :: sp :: tp :: ap :: rest) d
        = .error .InvalidAccountOwner) ∧
    (∀ (derive : DeriveFn) (rentMin : Nat → Nat)
      (maker mint_a mint_b maker_ata vault escrow sp tp ap : AccountView)
      (rest : List AccountView) (d : List Nat),
      maker.isSigner = true → mint_a.owner = tokenID →
      mint_b.owner = tokenID → maker_ata.owner = tokenID →
      escrow.owner = systemID → vault.owner = systemID →
      d.length ≠ 18 →
      make derive rentMin (maker :: mint_a :: mint_b :: maker_ata ::
        vault :: escrow :: sp :: tp :: ap :: rest) d
        = .error .InvalidInstructionData) ∧
    (∀ (derive : DeriveFn) (rentMin : Nat → Nat)
      (maker mint_a mint_b maker_ata vault escrow sp tp ap : AccountView)
      (rest : List AccountView) (d : List Nat),
      maker.isSigner = true → mint_a.owner = tokenID →
      mint_b.owner = tokenID → maker_ata.owner = tokenID →
      escrow.owner = systemID → vault.owner = systemID →
      d.length = 18 →
      u64FromLE (d.take 8) = 0 ∨ u64FromLE ((d.drop 8).take 8) = 0 →
      make derive rentMin (maker :: mint_a :: mint_b :: maker_ata ::
        vault :: escrow :: sp :: tp :: ap :: rest) d
        = .error .InvalidInstructionData) ∧
    (∀ (derive : DeriveFn) (rentMin : Nat → Nat)
      (maker mint_a mint_b maker_ata vault escrow sp tp ap : AccountView)
      (rest : List AccountView) (d : List Nat),
      maker.isSigner = true → mint_a.owner = tokenID →
      mint_b.owner = tokenID → maker_ata.owner = tokenID →
      escrow.owner = systemID → vault.owner = systemID →
      d.length = 18 →
      u64FromLE (d.take 8) ≠ 0 → u64FromLE ((d.drop 8).take 8) ≠ 0 →
      derive [escrowLit, maker.address, [byteAt d 16], [byteAt d 17]]
        crateID ≠ escrow.address →
      make derive rentMin (maker :: mint_a :: mint_b :: maker_ata ::
        vault :: escrow :: sp :: tp :: ap :: rest) d
        = .error .InvalidAccountOwner) := by
  refine ⟨?_, ?_, ?_, ?_, ?_, ?_, ?_, ?_⟩
  · intro derive rentMin accounts d hlen
    rcases accounts with _ | ⟨a1, _ | ⟨a2, _ | ⟨a3, _ | ⟨a4, _ | ⟨a5,
      _ | ⟨a6, _ | ⟨a7, _ | ⟨a8, _ | ⟨a9, rest⟩⟩⟩⟩⟩⟩⟩⟩⟩
    all_goals try rfl
    simp only [List.length_cons] at hlen
    omega
  · intro derive rentMin maker mint_a mint_b maker_ata vault escrow sp tp
      ap rest d h1
    simp [make, makeValidate, rejectIf, h1, Bind.bind, Except.bind]
  · intro derive rentMin maker mint_a mint_b maker_ata vault escrow sp tp
      ap rest d h1 h2
    rcases h2 with h2 | h2 <;>
      simp [make, makeValidate, rejectIf, h1, h2, Bind.bind, Except.bind]
  · intro derive rentMin maker mint_a mint_b maker_ata vault escrow sp tp
      ap rest d h1 h2 h3 h4
    simp [make, makeValidate, rejectIf, h1, h2, h3, h4, Bind.bind,
      Except.bind]
  · intro derive rentMin maker mint_a mint_b maker_ata vault escrow sp tp
      ap rest d h1 h2 h3 h4 h5
    rcases h5 with h5 | h5 <;>
      simp [make, makeValidate, rejectIf, h1, h2, h3, h4, h5, Bind.bind,
        Except.bind]
  · intro derive rentMin maker mint_a mint_b maker_ata vault escrow sp tp
      ap rest d h1 h2 h3 h4 h5 h6 h7
    simp [make, makeValidate, rejectIf, h1, h2, h3, h4, h5, h6, h7,
      Bind.bind, Except.bind]
  · intro derive rentMin maker mint_a mint_b maker_ata vault escrow sp tp
      ap rest d h1 h2 h3 h4 h5 h6 h7 h8
    rcases h8 with h8 | h8 <;>
      simp [make, makeValidate, rejectIf, h1, h2, h3, h4, h5, h6, h7, h8,
        Bind.bind, Except.bind]
  · intro derive rentMin maker mint_a mint_b maker_ata vault escrow sp tp
      ap rest d h1 h2 h3 h4 h5 h6 h7 h8 h9 h10
    simp [make, makeValidate, rejectIf, h1, h2, h3, h4, h5, h6, h7, h8,
      h9, h10, Bind.bind, Except.bind]

/-- Witness for C9 (amended): concrete rejections from four different
groups — too few accounts, missing signature, short payload, derivation
mismatch — each with the stated error code. -/
theorem open_enforces_each_precondition_witness :
    make deriveC rentMinC [] makeDataC = .error .NotEnoughAccountKeys ∧
    make deriveC rentMinC (accMakerNoSig :: accMintA :: accMintB ::
      accMakerAta :: accVaultSlot :: accEscrowSlot :: accSys ::
      accTokProg :: accAtaProg :: []) makeDataC
      = .error .InvalidAccountOwner ∧
    make deriveC rentMinC makeAccs [1, 2, 3]
      = .error .InvalidInstructionData ∧
    make deriveBad rentMinC makeAccs makeDataC
      = .error .InvalidAccountOwner :=
  ⟨open_enforces_each_precondition.1 deriveC rentMinC [] makeDataC
      (by decide),
   open_enforces_each_precondition.2.1 deriveC rentMinC accMakerNoSig
      accMintA accMintB accMakerAta accVaultSlot accEscrowSlot accSys
      accTokProg accAtaProg [] makeDataC rfl,
   open_enforces_each_precondition.2.2.2.2.2.1 deriveC rentMinC accMaker
      accMintA accMintB accMakerAta accVaultSlot accEscrowSlot accSys
      accTokProg accAtaProg [] [1, 2, 3] rfl rfl rfl rfl rfl rfl
      (by decide),
   open_enforces_each_precondition.2.2.2.2.2.2.2 deriveBad rentMinC
      accMaker accMintA accMintB accMakerAta accVaultSlot accEscrowSlot
      accSys accTokProg accAtaProg [] makeDataC rfl rfl rfl rfl rfl rfl
      (by decide) (by decide) (by decide) (by decide)⟩

/-- C10: Open's validation gate checks only that the maker's asset-A
balance account is token-program owned: for every account in that
position whose recorded owner field is not the maker or whose recorded
mint is not asset A, the whole gate still passes.  Settle, by contrast,
rejects a taker asset-A account whose recorded owner is not the taker,
and Cancel rejects a maker asset-A account whose recorded owner is not
the maker. -/
theorem open_gate_ignores_maker_ata_linkage :
    (∀ (derive : DeriveFn)
      (maker mint_a mint_b maker_ata vault escrow : AccountView)
      (d : List Nat) (mt : TokAcc),
      maker_ata.tok = some mt →
      mt.owner ≠ maker.address ∨ mt.mint ≠ mint_a.address →
      maker.isSigner = true → mint_a.owner = tokenID →
      mint_b.owner = tokenID → maker_ata.owner = tokenID →
      escrow.owner = systemID → vault.owner = systemID →
      d.length = 18 →
      u64FromLE (d.take 8) ≠ 0 → u64FromLE ((d.drop 8).take 8) ≠ 0 →
      derive [escrowLit, maker.address, [byteAt d 16], [byteAt d 17]]
        crateID = escrow.address →
      makeValidate derive maker mint_a mint_b maker_ata vault escrow d
        = .ok ⟨u64FromLE (d.take 8), u64FromLE ((d.drop 8).take 8),
            byteAt d 16, byteAt d 17⟩) ∧
    (∀ (derive : DeriveFn)
      (taker maker mint_a mint_b taker_ata_a taker_ata_b vault maker_ata_b
        escrow sp tp : AccountView) (rest : List AccountView) (taa : TokAcc),
      taker_ata_a.tok = some taa → taa.owner ≠ taker.address →
      isErr (take derive (taker :: maker :: mint_a :: mint_b ::
        taker_ata_a :: taker_ata_b :: vault :: maker_ata_b :: escrow ::
        sp :: tp :: rest)) = true) ∧
    (∀ (derive : DeriveFn)
      (maker mint_a mint_b maker_ata vault escrow sp tp : AccountView)
      (rest : List AccountView) (ma : TokAcc),
      maker_ata.tok = some ma → ma.owner ≠ maker.address →
      isErr (refund derive (maker :: mint_a :: mint_b :: maker_ata ::
        vault :: escrow :: sp :: tp :: rest)) = true) := by
  refine ⟨?_, ?_, ?_⟩
  · intro derive maker mint_a mint_b maker_ata vault escrow d mt _ _ h1 h2
      h3 h4 h5 h6 h7 h8 h9 h10
    simp [makeValidate, rejectIf, h1, h2, h3, h4, h5, h6, h7, h8, h9, h10,
      Bind.bind, Except.bind, pure, Except.pure]
  · intro derive taker maker mint_a mint_b taker_ata_a taker_ata_b vault
      maker_ata_b escrow sp tp rest taa htaa hno
    cases hres : take derive (taker :: maker :: mint_a :: mint_b ::
      taker_ata_a :: taker_ata_b :: vault :: maker_ata_b :: escrow ::
      sp :: tp :: rest) with
    | error e => simp [isErr]
    | ok r =>
      exfalso
      obtain ⟨c, _, _, hv, _⟩ := take_ok_inv hres
      obtain ⟨_, _, _, _, _, _, _, htaa', _, _, _, howner, _⟩ :=
        takeValidate_ok hv
      rw [htaa] at htaa'
      obtain rfl : taa = c.tokTAA := Option.some.inj htaa'
      exact hno howner
  · intro derive maker mint_a mint_b maker_ata vault escrow sp tp rest ma
      hma hno
    cases hres : refund derive (maker :: mint_a :: mint_b :: maker_ata ::
      vault :: escrow :: sp :: tp :: rest) with
    | error e => simp [isErr]
    | ok r =>
      exfalso
      obtain ⟨c, _, hv, _⟩ := refund_ok_inv hres
      obtain ⟨_, _, _, _, _, hma', _, howner, _⟩ := refundValidate_ok hv
      rw [hma] at hma'
      obtain rfl : ma = c.tokMA := Option.some.inj hma'
      exact hno howner

/-- Witness for C10: with a maker asset-A account recorded as owned by the
taker and holding asset B, Open's gate still passes; the analogous wrong
owner field makes Settle and Cancel reject. -/
theorem open_gate_ignores_maker_ata_linkage_witness :
    makeValidate deriveC accMaker accMintA accMintB accMakerAtaWrong
      accVaultSlot accEscrowSlot makeDataC = .ok ⟨70, 30, 7, 254⟩ ∧
    isErr (take deriveC (accTaker :: accMakerRO :: accMintA :: accMintB ::
      accTakerAtaAWrong :: accTakerAtaB :: accVault :: accMakerAtaB ::
      accEscrow :: accSys :: accTokProg :: [])) = true ∧
    isErr (refund deriveC (accMaker :: accMintA :: accMintB ::
      accMakerAtaWrong :: accVault :: accEscrow :: accSys ::
      accTokProg :: [])) = true :=
  ⟨open_gate_ignores_maker_ata_linkage.1 deriveC accMaker accMintA accMintB
      accMakerAtaWrong accVaultSlot accEscrowSlot makeDataC
      ⟨mintBAddr, takerAddr, 500⟩ rfl (Or.inl (by decide)) rfl rfl rfl rfl
      rfl rfl (by decide) (by decide) (by decide) (by decide),
   open_gate_ignores_maker_ata_linkage.2.1 deriveC accTaker accMakerRO
      accMintA accMintB accTakerAtaAWrong accTakerAtaB accVault
      accMakerAtaB accEscrow accSys accTokProg [] ⟨mintAAddr, makerAddr, 5⟩
      rfl (by decide),
   open_gate_ignores_maker_ata_linkage.2.2 deriveC accMaker accMintA
      accMintB accMakerAtaWrong accVault accEscrow accSys accTokProg []
      ⟨mintBAddr, takerAddr, 500⟩ rfl (by decide)⟩
